import Mathlib

/-!
Verification of the PyInstaller GUI builder (src/main.py).

The development shallowly embeds the three pieces of logic the claims are
about: the static import scanner `parse_imports` (lines 25-36), the icon
normalizer `convert_to_ico` (lines 38-50), and the command builder / build
runner `PyInstallerGUI.build_exe` (lines 222-267) together with the
fire-and-forget dispatcher `build_exe_threaded` (lines 219-220).

Strings are modelled with Lean `String` / `List Char`; the character
classes of the regular expression `^\s*(?:import|from)\s+([\w\.]+)` are
modelled for ASCII input (Python's `\s` and `\w` additionally match some
non-ASCII codepoints, which no claim exercises).
-/

namespace PyInstallerGUIBuilder

/-- Python `\s` (ASCII part): the whitespace characters recognised by both
the regex character class and `str.strip()`. -/
def isPySpace (c : Char) : Bool :=
  c = ' ' || c = '\t' || c = '\n' || c = '\x0d' || c = '\x0b' || c = '\x0c'

/-- Python `\w` (ASCII part): letters, digits and underscore. -/
def isWordChar (c : Char) : Bool :=
  c.isAlphanum || c = '_'

/-- The character class `[\w\.]` of the import pattern. -/
def isWordDot (c : Char) : Bool :=
  isWordChar c || c = '.'

/-- Matching `\s+([\w\.]+)` against `s` (main.py line 27, the part of the
pattern after the keyword): at least one whitespace character, then the
maximal run of word-or-dot characters is captured.  Returns the captured
group, or `none` when the match fails. -/
def matchAfterKeyword (s : List Char) : Option (List Char) :=
  if (s.takeWhile isPySpace).isEmpty then none
  else if ((s.dropWhile isPySpace).takeWhile isWordDot).isEmpty then none
  else some ((s.dropWhile isPySpace).takeWhile isWordDot)

/-- `import_pattern.match(line)` for `^\s*(?:import|from)\s+([\w\.]+)`
(main.py lines 27 and 31): skip leading whitespace, require the literal
`import` or `from`, then match `\s+([\w\.]+)`.  The two alternatives are
distinguished by their first letter, so the regex backtracking collapses
to this first-match test. -/
def importMatch (line : List Char) : Option (List Char) :=
  if ("import".toList).isPrefixOf (line.dropWhile isPySpace) then
    matchAfterKeyword ((line.dropWhile isPySpace).drop 6)
  else if ("from".toList).isPrefixOf (line.dropWhile isPySpace) then
    matchAfterKeyword ((line.dropWhile isPySpace).drop 4)
  else none

/-- `match.group(1).split('.')[0]` (main.py line 33): the captured text up
to the first dot. -/
def firstSegment (s : List Char) : List Char :=
  s.takeWhile (fun c => c ≠ '.')

/-- The module name contributed by one line of the scanned file, if any
(main.py lines 31-33). -/
def lineModule (line : String) : Option String :=
  (importMatch line.toList).map (fun g => String.mk (firstSegment g))

/-- All module names collected by the scan loop (main.py lines 30-33), in
file order, duplicates retained (deduplication happens in the set). -/
def collectModules (lines : List String) : List String :=
  lines.filterMap lineModule

/-- Computable lexicographic strict comparison of character lists, the
order Python uses to compare strings (codepoint by codepoint). -/
def listLtb : List Char → List Char → Bool
  | [], [] => false
  | [], _ :: _ => true
  | _ :: _, [] => false
  | a :: as, b :: bs =>
    if a < b then true
    else if b < a then false
    else listLtb as bs

/-- Computable strict comparison of strings, agreeing with the
lexicographic order (see `strLtb_iff`). -/
def strLtb (a b : String) : Bool :=
  listLtb a.toList b.toList

/-- Insertion into a strictly sorted list, skipping duplicates.  Folding
this over the collected names yields exactly `sorted(modules)` for the set
`modules` of main.py lines 26/33/36: the lexicographically sorted list of
the distinct collected names. -/
def insertSorted (x : String) : List String → List String
  | [] => [x]
  | y :: ys =>
    if strLtb x y then x :: y :: ys
    else if x = y then y :: ys
    else y :: insertSorted x ys

/-- `sorted(set(l))`: the sorted list of the distinct elements of `l`. -/
def sortedSet (l : List String) : List String :=
  l.foldl (fun acc x => insertSorted x acc) []

/-- `parse_imports` (main.py lines 25-36) on the decoded lines of the
file: collect the first dotted segment of every line matching the import
pattern, and return the sorted set. -/
def parse_imports (lines : List String) : List String :=
  sortedSet (collectModules lines)

/-- How the read of the scanned file can go (main.py lines 28-35): the
`open` call itself can raise, the line iteration can raise (a UTF-8 decode
error surfaces while iterating, possibly after a prefix of the file's
lines has already been yielded, since the text stream decodes in buffered
chunks), or the whole file is read. -/
inductive ReadOutcome
  | openError
  | decodeErrorAfter (prefixLines : List String)
  | success (lines : List String)

/-- `parse_imports` including its exception handler (main.py lines 28-36):
the `except` clause catches any failure, prints the error, and the
function returns `sorted(modules)` for whatever `modules` holds at that
point.  Result: the returned list, paired with whether an error was
reported. -/
def parse_imports_run : ReadOutcome → List String × Bool
  | .openError => (parse_imports [], true)
  | .decodeErrorAfter pre => (parse_imports pre, true)
  | .success lines => (parse_imports lines, false)

/-- `str.strip()` (main.py lines 236-249): remove leading and trailing
whitespace. -/
def pyStrip (s : String) : String :=
  String.mk (((s.toList.dropWhile isPySpace).reverse.dropWhile isPySpace).reverse)

/-- Python `str.rfind(c)`: the index of the last occurrence of `c`, or
`-1` when absent. -/
def pyRfind (c : Char) (l : List Char) : Int :=
  match List.findIdx? (fun d => d = c) l.reverse with
  | none => -1
  | some i => (l.length : Int) - 1 - i

/-- Python `str.split(c)` for a one-character separator. -/
def splitOnChar (c : Char) : List Char → List (List Char)
  | [] => [[]]
  | x :: xs =>
    if x = c then [] :: splitOnChar c xs
    else
      match splitOnChar c xs with
      | [] => [[x]]
      | h :: t => (x :: h) :: t

/-- Python `'/'.join(parts)`. -/
def joinSlash : List (List Char) → List Char
  | [] => []
  | [x] => x
  | x :: xs => x ++ '/' :: joinSlash xs

/-- `posixpath.normpath`: collapse `//`, `.` and `..` components. -/
def normpath (p : String) : String :=
  if p = "" then "."
  else
    let l := p.toList
    let initialSlashes : Nat :=
      if l.take 1 ≠ ['/'] then 0
      else if l.take 2 = ['/', '/'] ∧ l.take 3 ≠ ['/', '/', '/'] then 2
      else 1
    let newComps := (splitOnChar '/' l).foldl
      (fun acc comp =>
        if comp = [] ∨ comp = ['.'] then acc
        else if comp ≠ ['.', '.'] ∨ (initialSlashes = 0 ∧ acc = []) ∨
            acc.getLast? = some ['.', '.'] then
          acc ++ [comp]
        else if acc ≠ [] then acc.dropLast
        else acc) []
    let joined := List.replicate initialSlashes '/' ++ joinSlash newComps
    if joined = [] then "." else String.mk joined

/-- `posixpath.join` for two arguments (main.py line 43). -/
def pathJoin (a b : String) : String :=
  if b.toList.take 1 = ['/'] then b
  else if a = "" ∨ a.toList.getLast? = some '/' then a ++ b
  else a ++ "/" ++ b

/-- `os.path.abspath` (main.py line 252), with the process working
directory passed explicitly: join onto the working directory when the
path is relative, then normalize. -/
def abspath (cwd p : String) : String :=
  if p.toList.take 1 = ['/'] then normpath p else normpath (pathJoin cwd p)

/-- `posixpath.dirname` (main.py line 252): everything before the last
slash, with trailing slashes stripped unless the head is all slashes. -/
def dirname (p : String) : String :=
  let l := p.toList
  let head := l.take (pyRfind '/' l + 1).toNat
  if head ≠ [] ∧ ¬ head.all (fun c => c = '/') then
    String.mk (head.reverse.dropWhile (fun c => c = '/')).reverse
  else String.mk head

/-- `os.path.splitext(p)[1]` (main.py line 39, posix rules): the extension
starting at the last dot, provided it is after the last slash and the
file name does not consist solely of leading dots. -/
def splitextExt (p : String) : List Char :=
  let l := p.toList
  let sepIndex := pyRfind '/' l
  let dotIndex := pyRfind '.' l
  if sepIndex < dotIndex ∧
      ((l.take dotIndex.toNat).drop (sepIndex + 1).toNat).any (fun c => c ≠ '.') then
    l.drop dotIndex.toNat
  else []

/-- `os.path.splitext(p)[1].lower()` (main.py line 39). -/
def extLower (p : String) : String :=
  String.mk ((splitextExt p).map Char.toLower)

/-- Environment of one `convert_to_ico` call: `tempfile.gettempdir()`
(line 42) and whether `Image.open` followed by `img.save` succeeds
(lines 45-46, the external image library treated as an opaque
collaborator). -/
structure IcoEnv where
  tempDir : String
  saveOk : Bool

/-- Observable outcome of `convert_to_ico`: the returned value (`None` on
failure, line 50), whether a file was written (line 46), and whether the
failure dialog was requested (line 49). -/
structure IcoOutcome where
  result : Option String
  wrote : Bool
  reported : Bool
deriving DecidableEq

/-- `convert_to_ico` (main.py lines 38-50): if the lower-cased extension
is already `.ico`, return the input path unchanged without touching the
file system; otherwise re-encode into `<tempdir>/temp_icon.ico` and
return that path, or report the failure and return `None`. -/
def convert_to_ico (env : IcoEnv) (image_path : String) : IcoOutcome :=
  if extLower image_path = ".ico" then ⟨some image_path, false, false⟩
  else if env.saveOk then ⟨some (pathJoin env.tempDir "temp_icon.ico"), true, false⟩
  else ⟨none, false, true⟩

/-- `OPTION_DESCRIPTIONS` (main.py lines 16-23), an insertion-ordered
dictionary of flag token to description. -/
def OPTION_DESCRIPTIONS : List (String × String) :=
  [("--onefile", "1つの実行可能ファイルを生成します。"),
   ("--onedir", "1つのフォルダに実行可能ファイルを生成します。"),
   ("--noconfirm", "既存出力ディレクトリを上書き確認なしで置き換えます。"),
   ("--clean", "キャッシュと一時ファイルを削除します。"),
   ("--strip", "不要な情報を削除してサイズを小さくします。"),
   ("--noconsole", "コンソールウィンドウを表示せずに実行可能ファイルを作ります。")]

/-- The recognized boolean flags in declaration order (the iteration order
of `self.option_cbs`, a dict filled from `OPTION_DESCRIPTIONS` in
init_ui, main.py lines 94-98 and 231-233). -/
def OPTION_FLAGS : List String :=
  OPTION_DESCRIPTIONS.map Prod.fst

/-- One snapshot of the user's selections, as `build_exe` reads them from
the widgets: the script path (`file_input`), the checked state of each
flag checkbox (`option_cbs`), the four text fields, and the module
checkboxes `(label, checked)` in their presented order. -/
structure Selection where
  script : String
  flags : String → Bool
  nameInput : String
  iconInput : String
  adddataInput : String
  distInput : String
  modules : List (String × Bool)

/-- Environment of one build run: working directory (for `abspath`),
temporary directory and image-library outcome (for `convert_to_ico`),
whether `subprocess.Popen` and the following streaming succeed (the
try-block of lines 260-264), and the exit code the spawned process
terminates with (`process.wait()`, line 264). -/
structure BuildEnv where
  cwd : String
  tempDir : String
  iconSaveOk : Bool
  spawnOk : Bool
  exitCode : Int

/-- The user-visible notifications `build_exe` can emit (lines 225, 49,
265, 267), in chronological order of appearance. -/
inductive Note
  | warnNoScript
  | errIconConv
  | infoDone
  | errLaunch
deriving DecidableEq

/-- Observable outcome of one `build_exe` call: the assembled command
(`none` when the script precondition fails before any command is built),
whether the external process was spawned, and the emitted notifications
in order. -/
structure BuildOutcome where
  cmd : Option (List String)
  spawned : Bool
  notes : List Note
deriving DecidableEq

/-- The icon-resolution step (main.py lines 239-242): only a non-blank
icon field invokes `convert_to_ico`. -/
def iconResult (env : BuildEnv) (sel : Selection) : IcoOutcome :=
  if pyStrip sel.iconInput ≠ "" then
    convert_to_ico ⟨env.tempDir, env.iconSaveOk⟩ (pyStrip sel.iconInput)
  else ⟨none, false, false⟩

/-- The `--icon` tokens (main.py lines 241-242): appended only when the
conversion returned a path. -/
def iconTokens (env : BuildEnv) (sel : Selection) : List String :=
  match (iconResult env sel).result with
  | some p => ["--icon", p]
  | none => []

/-- The `--name` tokens (main.py lines 236-237). -/
def nameTokens (sel : Selection) : List String :=
  if pyStrip sel.nameInput ≠ "" then ["--name", pyStrip sel.nameInput] else []

/-- The `--add-data` tokens (main.py lines 244-245). -/
def adddataTokens (sel : Selection) : List String :=
  if pyStrip sel.adddataInput ≠ "" then ["--add-data", pyStrip sel.adddataInput] else []

/-- The `--distpath` tokens (main.py lines 247-253): the trimmed field
when non-blank, otherwise the directory of the (absolutized) script. -/
def distTokens (env : BuildEnv) (sel : Selection) : List String :=
  if pyStrip sel.distInput ≠ "" then ["--distpath", pyStrip sel.distInput]
  else ["--distpath", dirname (abspath env.cwd sel.script)]

/-- The `--hidden-import=` tokens (main.py lines 256-258), one per checked
module checkbox, in presented order. -/
def hiddenImportTokens (sel : Selection) : List String :=
  (sel.modules.filter (fun m => m.2)).map (fun m => "--hidden-import=" ++ m.1)

/-- The assembled command (main.py lines 228-258): program name and
script, the checked flags in declaration order, then the value-bearing
options, then the hidden imports. -/
def buildCmd (env : BuildEnv) (sel : Selection) : List String :=
  ["pyinstaller", sel.script]
    ++ OPTION_FLAGS.filter sel.flags
    ++ nameTokens sel
    ++ iconTokens env sel
    ++ adddataTokens sel
    ++ distTokens env sel
    ++ hiddenImportTokens sel

/-- The Build Runner step (main.py lines 260-267): when the try-block
completes — the process was spawned, its merged output streamed and
`process.wait()` returned the exit code — the completion dialog is
requested; when it raises, the launch-error dialog is requested.  The
exit code is received but never consulted. -/
def runProcess (spawnOk : Bool) (exitCode : Int) : Bool × Note :=
  if spawnOk then (true, Note.infoDone) else (false, Note.errLaunch)

/-- `build_exe` (main.py lines 222-267): refuse a blank script with a
warning, otherwise build the command and run it, prepending the icon
conversion failure report when the conversion failed. -/
def build_exe (env : BuildEnv) (sel : Selection) : BuildOutcome :=
  if sel.script = "" then ⟨none, false, [Note.warnNoScript]⟩
  else
    ⟨some (buildCmd env sel),
     (runProcess env.spawnOk env.exitCode).1,
     (if (iconResult env sel).reported then [Note.errIconConv] else [])
       ++ [(runProcess env.spawnOk env.exitCode).2]⟩

/-- `build_exe_threaded` (main.py lines 219-220): clicking the build
button starts a new daemon thread running `build_exe`, with no guard,
queue or busy flag consulted.  On the in-flight count of build processes
its effect is to add one whenever `build_exe` spawns. -/
def build_exe_threaded (env : BuildEnv) (sel : Selection) (inFlight : Nat) : Nat :=
  inFlight + (if (build_exe env sel).spawned then 1 else 0)

/-- Session events for the concurrency claims: a click of the build
button, or the termination of one in-flight build process. -/
inductive BuildEvent
  | request
  | finish

/-- Effect of one event on the number of in-flight build processes. -/
def buildStep (env : BuildEnv) (sel : Selection) (s : Nat) : BuildEvent → Nat
  | BuildEvent.request => build_exe_threaded env sel s
  | BuildEvent.finish => s - 1

/-- The number of in-flight build processes after a sequence of events,
starting from an idle session. -/
def inFlightAfter (env : BuildEnv) (sel : Selection) (evs : List BuildEvent) : Nat :=
  evs.foldl (buildStep env sel) 0

/-- A benign environment: working directory `/work`, temp dir `/tmp`,
image library, spawn and exit all succeeding. -/
def envEx : BuildEnv := ⟨"/work", "/tmp", true, true, 0⟩

/-- A selection with a script and everything else blank. -/
def selBlank : Selection := ⟨"app.py", fun _ => false, "", "", "", "", []⟩

/-- A selection whose add-data field carries surrounding whitespace. -/
def selAddData : Selection := ⟨"app.py", fun _ => false, "", "", " a;b ", "", []⟩

/-- A selection with a non-ico icon path. -/
def selIcon : Selection := ⟨"app.py", fun _ => false, "", "img.png", "", "", []⟩

/-- An environment in which the image library fails. -/
def envIconFail : BuildEnv := ⟨"/work", "/tmp", false, true, 0⟩

/-- A selection with a flag, a name and a checked module. -/
def selFlags : Selection :=
  ⟨"app.py", fun f => f = "--onefile", "MyApp", "", "", "", [("os", true)]⟩

/-- The computable comparison decides the lexicographic order on character
lists. -/
theorem listLtb_iff (l₁ l₂ : List Char) :
    listLtb l₁ l₂ = true ↔ List.Lex (· < ·) l₁ l₂ := by
  induction l₁ generalizing l₂ with
  | nil =>
    cases l₂ with
    | nil => simp [listLtb]
    | cons b bs => simpa [listLtb] using List.Lex.nil
  | cons a as ih =>
    cases l₂ with
    | nil => simp [listLtb]
    | cons b bs =>
      simp only [listLtb]
      rcases lt_trichotomy a b with h | h | h
      · simpa [h] using List.Lex.rel h
      · subst h
        simp only [lt_irrefl, if_false, ite_false]
        exact (ih bs).trans List.Lex.cons_iff.symm
      · have h1 : ¬ a < b := not_lt_of_gt h
        simp only [if_neg h1, if_pos h]
        constructor
        · intro hfalse
          exact absurd hfalse (by simp)
        · intro hlex
          cases hlex with
          | cons h2 => exact absurd h (lt_irrefl a)
          | rel h2 => exact absurd h2 (asymm h)

/-- The computable comparison decides the lexicographic order on strings. -/
theorem strLtb_iff (a b : String) : strLtb a b = true ↔ a < b := by
  rw [String.lt_iff_toList_lt]
  exact listLtb_iff a.toList b.toList

/-- Membership in an insertion. -/
theorem mem_insertSorted {z x : String} :
    ∀ {l : List String}, z ∈ insertSorted x l ↔ z = x ∨ z ∈ l
  | [] => by simp [insertSorted]
  | y :: ys => by
    simp only [insertSorted]
    split_ifs with h1 h2
    · simp [List.mem_cons]
    · subst h2
      simp [List.mem_cons]
    · simp only [List.mem_cons, @mem_insertSorted z x ys]
      tauto

/-- Insertion preserves strict sortedness. -/
theorem sorted_insertSorted {x : String} :
    ∀ {l : List String}, l.Sorted (· < ·) → (insertSorted x l).Sorted (· < ·)
  | [], _ => by simp [insertSorted]
  | y :: ys, h => by
    obtain ⟨hy, hys⟩ := List.sorted_cons.mp h
    simp only [insertSorted]
    split_ifs with h1 h2
    · refine List.sorted_cons.mpr ⟨?_, h⟩
      intro b hb
      have hxy : x < y := (strLtb_iff x y).mp h1
      rcases List.mem_cons.mp hb with rfl | hb
      · exact hxy
      · exact lt_trans hxy (hy b hb)
    · exact h
    · have hnlt : ¬ x < y := fun hc => h1 ((strLtb_iff x y).mpr hc)
      have hyx : y < x := lt_of_le_of_ne (le_of_not_lt hnlt) (Ne.symm h2)
      refine List.sorted_cons.mpr ⟨?_, sorted_insertSorted hys⟩
      intro b hb
      rcases mem_insertSorted.mp hb with rfl | hb
      · exact hyx
      · exact hy b hb

/-- The accumulated fold of insertions preserves strict sortedness. -/
theorem sorted_foldl_insert :
    ∀ (l acc : List String), acc.Sorted (· < ·) →
      (l.foldl (fun a x => insertSorted x a) acc).Sorted (· < ·)
  | [], _, h => h
  | x :: xs, acc, h => sorted_foldl_insert xs (insertSorted x acc) (sorted_insertSorted h)

/-- Membership in the accumulated fold of insertions. -/
theorem mem_foldl_insert :
    ∀ (l acc : List String) (z : String),
      z ∈ l.foldl (fun a x => insertSorted x a) acc ↔ z ∈ acc ∨ z ∈ l
  | [], acc, z => by simp
  | x :: xs, acc, z => by
    rw [List.foldl_cons, mem_foldl_insert xs (insertSorted x acc) z]
    simp only [mem_insertSorted, List.mem_cons]
    tauto

/-- `sorted(set(l))` is strictly sorted: lexicographically ordered and
duplicate-free. -/
theorem sorted_sortedSet (l : List String) : (sortedSet l).Sorted (· < ·) :=
  sorted_foldl_insert l [] (by simp)

/-- `sorted(set(l))` has the same members as `l`. -/
theorem mem_sortedSet {z : String} {l : List String} : z ∈ sortedSet l ↔ z ∈ l := by
  rw [sortedSet, mem_foldl_insert]
  simp

/-- The scanner output is strictly sorted. -/
theorem parse_imports_sorted (lines : List String) :
    (parse_imports lines).Sorted (· < ·) :=
  sorted_sortedSet (collectModules lines)

/-- The scanner output has no duplicates. -/
theorem parse_imports_nodup (lines : List String) : (parse_imports lines).Nodup :=
  (parse_imports_sorted lines).nodup

/-- Scanner membership reduces to a line contributing the name. -/
theorem mem_parse_imports {z : String} {lines : List String} :
    z ∈ parse_imports lines ↔ ∃ line ∈ lines, lineModule line = some z := by
  rw [parse_imports, mem_sortedSet, collectModules, List.mem_filterMap]

theorem isPySpace_space : isPySpace ' ' = true := by decide

theorem isWordDot_dot : isWordDot '.' = true := by decide

/-- A whitespace character is not a word character. -/
theorem space_not_word {c : Char} (h : isPySpace c = true) : isWordChar c = false := by
  simp only [isPySpace, Bool.or_eq_true, decide_eq_true_eq] at h
  rcases h with ((((h | h) | h) | h) | h) | h <;> subst h <;> decide

/-- A word character is not whitespace. -/
theorem word_not_space {c : Char} (h : isWordChar c = true) : isPySpace c = false := by
  cases hps : isPySpace c
  · rfl
  · rw [space_not_word hps] at h
    exact absurd h (by decide)

/-- A word character is not a dot. -/
theorem word_ne_dot {c : Char} (h : isWordChar c = true) : c ≠ '.' := by
  intro hc
  subst hc
  exact absurd h (by decide)

/-- `takeWhile` passes over a block of characters that all satisfy the
predicate. -/
theorem takeWhile_append_all {p : Char → Bool} :
    ∀ {l₁ : List Char} (l₂ : List Char), (∀ c ∈ l₁, p c = true) →
      (l₁ ++ l₂).takeWhile p = l₁ ++ l₂.takeWhile p
  | [], _, _ => rfl
  | c :: cs, l₂, h => by
    have hc : p c = true := h c (by simp)
    simp only [List.cons_append, List.takeWhile_cons, hc, if_true]
    rw [takeWhile_append_all l₂ (fun d hd => h d (by simp [hd]))]

/-- `dropWhile` removes a block of characters that all satisfy the
predicate. -/
theorem dropWhile_append_all {p : Char → Bool} :
    ∀ {l₁ : List Char} (l₂ : List Char), (∀ c ∈ l₁, p c = true) →
      (l₁ ++ l₂).dropWhile p = l₂.dropWhile p
  | [], _, _ => rfl
  | c :: cs, l₂, h => by
    have hc : p c = true := h c (by simp)
    simp only [List.cons_append, List.dropWhile_cons, hc, if_true]
    exact dropWhile_append_all l₂ (fun d hd => h d (by simp [hd]))

/-- The first dotted segment of a captured group that starts with a block
of word characters followed by a dot. -/
theorem firstSegment_append_dot (a t : List Char) (ha : ∀ c ∈ a, isWordChar c = true) :
    firstSegment (a ++ '.' :: t) = a := by
  unfold firstSegment
  rw [takeWhile_append_all ('.' :: t)
    (fun c hc => by simp [word_ne_dot (ha c hc)])]
  simp

/-- Matching `\s+([\w\.]+)` directly after the keyword, where the text is
one space, a nonempty block of word characters, a dot, and arbitrary
remaining text: the captured group is the block, the dot, and the longest
word-or-dot run of the remaining text. -/
theorem matchAfterKeyword_space_word (a rest : List Char)
    (ha : a ≠ []) (haw : ∀ c ∈ a, isWordChar c = true) :
    matchAfterKeyword (' ' :: (a ++ '.' :: rest)) =
      some (a ++ '.' :: rest.takeWhile isWordDot) := by
  obtain ⟨a0, a', rfl⟩ := List.exists_cons_of_ne_nil ha
  have ha0 : isWordChar a0 = true := haw a0 (by simp)
  have hwd : ∀ c ∈ a0 :: a', isWordDot c = true := by
    intro c hc
    simp [isWordDot, haw c hc]
  have hdrop : List.dropWhile isPySpace (' ' :: (a0 :: a' ++ '.' :: rest)) =
      a0 :: (a' ++ '.' :: rest) := by
    simp [List.dropWhile_cons, word_not_space ha0, isPySpace_space]
  have hname : List.takeWhile isWordDot (a0 :: (a' ++ '.' :: rest)) =
      a0 :: (a' ++ '.' :: List.takeWhile isWordDot rest) := by
    have hall := @takeWhile_append_all isWordDot (a0 :: a') ('.' :: rest) hwd
    simp only [List.cons_append] at hall
    rw [hall]
    simp [List.takeWhile_cons, isWordDot_dot]
  unfold matchAfterKeyword
  rw [hdrop, hname]
  simp [List.takeWhile_cons, isPySpace_space]

/-- The whole pattern on an (optionally indented) `import foo.bar`-style
line: keyword `import`, one space, the dotted name, arbitrary text after
it. -/
theorem importMatch_import_line (ws a rest : List Char)
    (hws : ∀ c ∈ ws, isPySpace c = true)
    (ha : a ≠ []) (haw : ∀ c ∈ a, isWordChar c = true) :
    importMatch (ws ++ ("import ".toList ++ (a ++ '.' :: rest))) =
      some (a ++ '.' :: rest.takeWhile isWordDot) := by
  have hdrop : List.dropWhile isPySpace (ws ++ ("import ".toList ++ (a ++ '.' :: rest))) =
      'i' :: 'm' :: 'p' :: 'o' :: 'r' :: 't' :: ' ' :: (a ++ '.' :: rest) := by
    rw [dropWhile_append_all _ hws]
    rw [show "import ".toList ++ (a ++ '.' :: rest) =
      'i' :: 'm' :: 'p' :: 'o' :: 'r' :: 't' :: ' ' :: (a ++ '.' :: rest) from rfl]
    simp [List.dropWhile_cons, show isPySpace 'i' = false from by decide]
  unfold importMatch
  rw [hdrop]
  rw [show ("import".toList).isPrefixOf
      ('i' :: 'm' :: 'p' :: 'o' :: 'r' :: 't' :: ' ' :: (a ++ '.' :: rest)) = true from by
    simp [List.isPrefixOf]]
  rw [if_pos rfl]
  rw [show List.drop 6 ('i' :: 'm' :: 'p' :: 'o' :: 'r' :: 't' :: ' ' :: (a ++ '.' :: rest)) =
    ' ' :: (a ++ '.' :: rest) from rfl]
  exact matchAfterKeyword_space_word a rest ha haw

/-- The whole pattern on an (optionally indented) `from foo.bar import
baz`-style line: keyword `from`, one space, the dotted name, arbitrary
text after it. -/
theorem importMatch_from_line (ws a rest : List Char)
    (hws : ∀ c ∈ ws, isPySpace c = true)
    (ha : a ≠ []) (haw : ∀ c ∈ a, isWordChar c = true) :
    importMatch (ws ++ ("from ".toList ++ (a ++ '.' :: rest))) =
      some (a ++ '.' :: rest.takeWhile isWordDot) := by
  have hdrop : List.dropWhile isPySpace (ws ++ ("from ".toList ++ (a ++ '.' :: rest))) =
      'f' :: 'r' :: 'o' :: 'm' :: ' ' :: (a ++ '.' :: rest) := by
    rw [dropWhile_append_all _ hws]
    rw [show "from ".toList ++ (a ++ '.' :: rest) =
      'f' :: 'r' :: 'o' :: 'm' :: ' ' :: (a ++ '.' :: rest) from rfl]
    simp [List.dropWhile_cons, show isPySpace 'f' = false from by decide]
  unfold importMatch
  rw [hdrop]
  rw [show ("import".toList).isPrefixOf
      ('f' :: 'r' :: 'o' :: 'm' :: ' ' :: (a ++ '.' :: rest)) = false from by
    simp [List.isPrefixOf]]
  rw [if_neg (by simp)]
  rw [show ("from".toList).isPrefixOf
      ('f' :: 'r' :: 'o' :: 'm' :: ' ' :: (a ++ '.' :: rest)) = true from by
    simp [List.isPrefixOf]]
  rw [if_pos rfl]
  rw [show List.drop 4 ('f' :: 'r' :: 'o' :: 'm' :: ' ' :: (a ++ '.' :: rest)) =
    ' ' :: (a ++ '.' :: rest) from rfl]
  exact matchAfterKeyword_space_word a rest ha haw

/-- The whole pattern on an (optionally indented) relative-import line
`from .` followed by anything: the captured group starts with the dot. -/
theorem importMatch_from_dot (ws r : List Char)
    (hws : ∀ c ∈ ws, isPySpace c = true) :
    importMatch (ws ++ ("from .".toList ++ r)) =
      some ('.' :: r.takeWhile isWordDot) := by
  have hdrop : List.dropWhile isPySpace (ws ++ ("from .".toList ++ r)) =
      'f' :: 'r' :: 'o' :: 'm' :: ' ' :: '.' :: r := by
    rw [dropWhile_append_all _ hws]
    rw [show "from .".toList ++ r = 'f' :: 'r' :: 'o' :: 'm' :: ' ' :: '.' :: r from rfl]
    simp [List.dropWhile_cons, show isPySpace 'f' = false from by decide]
  unfold importMatch
  rw [hdrop]
  rw [show ("import".toList).isPrefixOf ('f' :: 'r' :: 'o' :: 'm' :: ' ' :: '.' :: r) = false from
    by simp [List.isPrefixOf]]
  rw [if_neg (by simp)]
  rw [show ("from".toList).isPrefixOf ('f' :: 'r' :: 'o' :: 'm' :: ' ' :: '.' :: r) = true from by
    simp [List.isPrefixOf]]
  rw [if_pos rfl]
  rw [show List.drop 4 ('f' :: 'r' :: 'o' :: 'm' :: ' ' :: '.' :: r) = ' ' :: '.' :: r from rfl]
  simp [matchAfterKeyword, List.takeWhile_cons, List.dropWhile_cons, isPySpace_space,
    isWordDot_dot, show isPySpace '.' = false from by decide]

/-- The module contributed by an `import foo.bar`-style line is `foo`. -/
theorem lineModule_import_line (ws a rest : List Char)
    (hws : ∀ c ∈ ws, isPySpace c = true)
    (ha : a ≠ []) (haw : ∀ c ∈ a, isWordChar c = true) :
    lineModule (String.mk (ws ++ ("import ".toList ++ (a ++ '.' :: rest)))) =
      some (String.mk a) := by
  unfold lineModule
  rw [show (String.mk (ws ++ ("import ".toList ++ (a ++ '.' :: rest)))).toList =
    ws ++ ("import ".toList ++ (a ++ '.' :: rest)) from rfl]
  rw [importMatch_import_line ws a rest hws ha haw]
  simp only [Option.map_some']
  rw [firstSegment_append_dot a (rest.takeWhile isWordDot) haw]

/-- The module contributed by a `from foo.bar import baz`-style line is
`foo`. -/
theorem lineModule_from_line (ws a rest : List Char)
    (hws : ∀ c ∈ ws, isPySpace c = true)
    (ha : a ≠ []) (haw : ∀ c ∈ a, isWordChar c = true) :
    lineModule (String.mk (ws ++ ("from ".toList ++ (a ++ '.' :: rest)))) =
      some (String.mk a) := by
  unfold lineModule
  rw [show (String.mk (ws ++ ("from ".toList ++ (a ++ '.' :: rest)))).toList =
    ws ++ ("from ".toList ++ (a ++ '.' :: rest)) from rfl]
  rw [importMatch_from_line ws a rest hws ha haw]
  simp only [Option.map_some']
  rw [firstSegment_append_dot a (rest.takeWhile isWordDot) haw]

/-- The module contributed by a relative-import line is the empty
string. -/
theorem lineModule_from_dot (ws r : List Char)
    (hws : ∀ c ∈ ws, isPySpace c = true) :
    lineModule (String.mk (ws ++ ("from .".toList ++ r))) = some "" := by
  unfold lineModule
  rw [show (String.mk (ws ++ ("from .".toList ++ r))).toList =
    ws ++ ("from .".toList ++ r) from rfl]
  rw [importMatch_from_dot ws r hws]
  simp only [Option.map_some']
  rfl

/-- Every name the scanner returns is dot-free. -/
theorem parse_imports_no_dot {z : String} {lines : List String}
    (h : z ∈ parse_imports lines) : '.' ∉ z.toList := by
  rw [mem_parse_imports] at h
  obtain ⟨line, _, hmod⟩ := h
  unfold lineModule at hmod
  cases him : importMatch line.toList with
  | none => rw [him] at hmod; simp at hmod
  | some g =>
    rw [him] at hmod
    simp only [Option.map_some', Option.some.injEq] at hmod
    intro hdot
    rw [← hmod] at hdot
    have hdot' : '.' ∈ firstSegment g := hdot
    have := List.mem_takeWhile_imp hdot'
    simp at this

/-- The empty string is the least string in the lexicographic order. -/
theorem empty_string_le (s : String) : ("" : String) ≤ s := by
  rw [String.le_iff_toList_le]
  simp

/-- In a strictly sorted list containing the empty string, the empty
string is the head. -/
theorem sorted_head_eq_empty {l : List String} (hs : l.Sorted (· < ·))
    (h : "" ∈ l) : l.head? = some "" := by
  cases l with
  | nil => simp at h
  | cons x xs =>
    rcases List.mem_cons.mp h with hx | hmem
    · rw [← hx]
      rfl
    · have hlt : x < "" := (List.sorted_cons.mp hs).1 "" hmem
      exact absurd hlt (not_lt_of_ge (empty_string_le x))

/-- C4: for every file whose text contains a line of the form
`import foo.bar` or `from foo.bar import baz` (optionally indented, with
arbitrary text after the dotted name), the scanner's result contains the
first dotted segment `foo`, does not contain `foo.bar`, and is a
lexicographically ordered list without duplicates. -/
theorem c4_scanner_first_segment
    (lines : List String) (ws a rest : List Char)
    (hws : ∀ c ∈ ws, isPySpace c = true)
    (ha : a ≠ []) (haw : ∀ c ∈ a, isWordChar c = true)
    (hline :
      String.mk (ws ++ ("import ".toList ++ (a ++ '.' :: rest))) ∈ lines ∨
      String.mk (ws ++ ("from ".toList ++ (a ++ '.' :: rest))) ∈ lines) :
    String.mk a ∈ parse_imports lines ∧
      String.mk (a ++ '.' :: rest) ∉ parse_imports lines ∧
      (parse_imports lines).Sorted (· < ·) ∧
      (parse_imports lines).Nodup := by
  refine ⟨?_, ?_, parse_imports_sorted lines, parse_imports_nodup lines⟩
  · rcases hline with h | h
    · exact mem_parse_imports.mpr ⟨_, h, lineModule_import_line ws a rest hws ha haw⟩
    · exact mem_parse_imports.mpr ⟨_, h, lineModule_from_line ws a rest hws ha haw⟩
  · intro hmem
    apply parse_imports_no_dot hmem
    show '.' ∈ a ++ '.' :: rest
    simp

/-- C4 witness: the scanner on a file consisting of `import foo.bar`
returns `foo`, not `foo.bar`, sorted and duplicate-free. -/
theorem c4_scanner_first_segment_witness :
    "foo" ∈ parse_imports ["import foo.bar"] ∧
      "foo.bar" ∉ parse_imports ["import foo.bar"] ∧
      (parse_imports ["import foo.bar"]).Sorted (· < ·) ∧
      (parse_imports ["import foo.bar"]).Nodup := by
  have h := c4_scanner_first_segment ["import foo.bar"] [] ("foo".toList) ("bar".toList)
    (by simp) (by decide) (by decide)
    (Or.inl (List.mem_singleton.mpr rfl))
  exact h

/-- C10: for every file containing a relative-import line
(`from . import x`, `from .foo import bar`, and the like, optionally
indented), the scanner's result includes the empty string, which sorts
before every name in the returned list and is the head of the returned
list. -/
theorem c10_scanner_relative_import
    (lines : List String) (ws r : List Char)
    (hws : ∀ c ∈ ws, isPySpace c = true)
    (hline : String.mk (ws ++ ("from .".toList ++ r)) ∈ lines) :
    "" ∈ parse_imports lines ∧
      (∀ s ∈ parse_imports lines, ("" : String) ≤ s) ∧
      (parse_imports lines).head? = some "" := by
  have hmem : "" ∈ parse_imports lines :=
    mem_parse_imports.mpr ⟨_, hline, lineModule_from_dot ws r hws⟩
  exact ⟨hmem, fun s _ => empty_string_le s,
    sorted_head_eq_empty (parse_imports_sorted lines) hmem⟩

/-- C10 witness: the scanner on a file consisting of `from . import x`
returns the empty string first. -/
theorem c10_scanner_relative_import_witness :
    "" ∈ parse_imports ["from . import x"] ∧
      (∀ s ∈ parse_imports ["from . import x"], ("" : String) ≤ s) ∧
      (parse_imports ["from . import x"]).head? = some "" := by
  have h := c10_scanner_relative_import ["from . import x"] [] (" import x".toList)
    (by simp) (List.mem_singleton.mpr rfl)
  exact h

/-- C5 counterexample: a large file whose early lines decode (one of them
`import requests`) and whose read then fails with a decode error returns
the non-empty list `[requests]` together with the error report, not the
empty set the claim requires for every file that cannot be decoded. -/
theorem c5_scanner_partial_result_counterexample :
    parse_imports_run (ReadOutcome.decodeErrorAfter ["import requests"]) =
      (["requests"], true) ∧ (["requests"] : List String) ≠ [] := by
  constructor
  · decide
  · decide

/-- C5 amended: when the file cannot be opened the scanner returns the
empty list, and when decoding fails mid-read it returns the sorted set of
modules collected from the lines read before the failure; in both cases
the error is reported and no exception escapes (the handler always
returns normally). -/
theorem c5_scanner_error_recovery (pre : List String) :
    parse_imports_run ReadOutcome.openError = ([], true) ∧
      parse_imports_run (ReadOutcome.decodeErrorAfter pre) = (parse_imports pre, true) :=
  ⟨rfl, rfl⟩

/-- The distpath marker is present in every dist token list. -/
theorem mem_distTokens (env : BuildEnv) (sel : Selection) :
    "--distpath" ∈ distTokens env sel := by
  unfold distTokens
  split_ifs <;> simp

/-- A failed conversion is a reported conversion. -/
theorem iconResult_none_reported {env : BuildEnv} {sel : Selection}
    (hi : pyStrip sel.iconInput ≠ "")
    (hfail : (iconResult env sel).result = none) :
    (iconResult env sel).reported = true := by
  unfold iconResult at hfail ⊢
  rw [if_pos hi] at hfail ⊢
  unfold convert_to_ico at hfail ⊢
  split_ifs at hfail ⊢ <;> simp_all

/-- C1: the Build Runner requests the completion ("done") notification
whenever the spawned process has exited, for every exit code alike — the
exit code returned by the wait is never consulted, so a nonzero exit
produces the same success notification as exit zero and no failure
outcome carrying the exit code exists. -/
theorem c1_success_shown_for_every_exit_code (exitCode : Int) :
    runProcess true exitCode = (true, Note.infoDone) ∧
      (build_exe ⟨"/work", "/tmp", true, true, exitCode⟩ selBlank).notes =
        [Note.infoDone] :=
  ⟨rfl, rfl⟩

/-- C2 counterexample: two build requests in a row with a valid script —
the second issued while the first process is still in flight — leave two
spawned processes in flight, so a second external process is spawned. -/
theorem c2_second_request_spawns_counterexample :
    inFlightAfter envEx selBlank [BuildEvent.request, BuildEvent.request] = 2 ∧
      1 < inFlightAfter envEx selBlank [BuildEvent.request, BuildEvent.request] := by
  constructor <;> decide

/-- C2 amended: a build request with a non-blank script whose spawn
succeeds increments the number of in-flight build processes by one
unconditionally, however many builds are already streaming — the
dispatcher consults no single-flight guard. -/
theorem c2_request_always_spawns (env : BuildEnv) (sel : Selection) (s : Nat)
    (hscript : sel.script ≠ "") (hspawn : env.spawnOk = true) :
    buildStep env sel s BuildEvent.request = s + 1 := by
  unfold buildStep build_exe_threaded build_exe
  rw [if_neg hscript]
  simp [runProcess, hspawn]

/-- C2 amended witness: with one build already in flight, a new request
brings the in-flight count to two. -/
theorem c2_request_always_spawns_witness :
    buildStep envEx selBlank 1 BuildEvent.request = 2 :=
  c2_request_always_spawns envEx selBlank 1 (by decide) rfl

/-- C3 counterexample: with raw add-data field value ` a;b ` (non-blank)
the built command carries the trimmed value `a;b`; the raw field value
appears nowhere in the command, so the command value is not
character-for-character equal to the selection value. -/
theorem c3_adddata_trimmed_counterexample :
    (build_exe envEx selAddData).cmd =
      some ["pyinstaller", "app.py", "--add-data", "a;b", "--distpath", "/work"] ∧
      " a;b " ∉ ["pyinstaller", "app.py", "--add-data", "a;b", "--distpath", "/work"] := by
  constructor <;> decide

/-- C3 amended: for every non-blank add-data input the Command Builder
appends the two-token pair of the add-data marker and the
whitespace-trimmed input value (interior characters unmodified and not
validated). -/
theorem c3_adddata_pair (env : BuildEnv) (sel : Selection)
    (hs : sel.script ≠ "") (hd : pyStrip sel.adddataInput ≠ "") :
    ∃ l1 l2, (build_exe env sel).cmd =
      some (l1 ++ ["--add-data", pyStrip sel.adddataInput] ++ l2) := by
  refine ⟨["pyinstaller", sel.script] ++ OPTION_FLAGS.filter sel.flags ++ nameTokens sel
    ++ iconTokens env sel, distTokens env sel ++ hiddenImportTokens sel, ?_⟩
  unfold build_exe
  rw [if_neg hs]
  unfold buildCmd adddataTokens
  rw [if_pos hd]
  simp [List.append_assoc]

/-- C3 amended witness: the trimmed pair for the field value ` a;b `. -/
theorem c3_adddata_pair_witness :
    ∃ l1 l2, (build_exe envEx selAddData).cmd =
      some (l1 ++ ["--add-data", pyStrip selAddData.adddataInput] ++ l2) :=
  c3_adddata_pair envEx selAddData (by decide) (by decide)

/-- C6: with a non-empty script and a blank output-directory field, the
built command contains the distpath marker followed by the directory
containing the (absolutized) script; and every built command contains the
distpath marker, so a destination is always specified. -/
theorem c6_default_distpath (env : BuildEnv) (sel : Selection)
    (hs : sel.script ≠ "") :
    (pyStrip sel.distInput = "" →
      ∃ l1 l2, (build_exe env sel).cmd =
        some (l1 ++ ["--distpath", dirname (abspath env.cwd sel.script)] ++ l2)) ∧
    ∃ l, (build_exe env sel).cmd = some l ∧ "--distpath" ∈ l := by
  constructor
  · intro hd
    refine ⟨["pyinstaller", sel.script] ++ OPTION_FLAGS.filter sel.flags ++ nameTokens sel
      ++ iconTokens env sel ++ adddataTokens sel, hiddenImportTokens sel, ?_⟩
    unfold build_exe
    rw [if_neg hs]
    unfold buildCmd distTokens
    rw [if_neg (by simp [hd])]
  · refine ⟨buildCmd env sel, ?_, ?_⟩
    · unfold build_exe
      rw [if_neg hs]
    · unfold buildCmd
      simp only [List.mem_append]
      exact Or.inl (Or.inr (mem_distTokens env sel))

/-- C6 witness: the blank-field default on the benign example. -/
theorem c6_default_distpath_witness :
    (pyStrip selBlank.distInput = "" →
      ∃ l1 l2, (build_exe envEx selBlank).cmd =
        some (l1 ++ ["--distpath", dirname (abspath envEx.cwd selBlank.script)] ++ l2)) ∧
    ∃ l, (build_exe envEx selBlank).cmd = some l ∧ "--distpath" ∈ l :=
  c6_default_distpath envEx selBlank (by decide)

/-- C7: an input path whose extension already denotes the icon container
format (case-insensitively `.ico`) is returned unchanged, with no file
write and no error report. -/
theorem c7_ico_passthrough (env : IcoEnv) (p : String)
    (h : extLower p = ".ico") :
    convert_to_ico env p = ⟨some p, false, false⟩ := by
  unfold convert_to_ico
  rw [if_pos h]

/-- C7 witness: an upper-case `.ICO` path passes through unchanged even
when the image library would fail. -/
theorem c7_ico_passthrough_witness :
    convert_to_ico ⟨"/tmp", false⟩ "App.ICO" = ⟨some "App.ICO", false, false⟩ :=
  c7_ico_passthrough ⟨"/tmp", false⟩ "App.ICO" (by decide)

/-- C8: when the icon field is non-blank and the conversion fails, the
icon tokens are empty and the built command equals the command built with
a blank icon field — the icon marker and value are omitted entirely — the
failure is reported, and the build still spawns with the remaining
options. -/
theorem c8_icon_failure_drops_option (env : BuildEnv) (sel : Selection)
    (hs : sel.script ≠ "") (hi : pyStrip sel.iconInput ≠ "")
    (hfail : (iconResult env sel).result = none) (hsp : env.spawnOk = true) :
    iconTokens env sel = [] ∧
    (build_exe env sel).cmd = some (buildCmd env { sel with iconInput := "" }) ∧
    Note.errIconConv ∈ (build_exe env sel).notes ∧
    (build_exe env sel).spawned = true := by
  have htok : iconTokens env sel = [] := by
    unfold iconTokens
    rw [hfail]
  have htok2 : iconTokens env { sel with iconInput := "" } = [] := by
    unfold iconTokens iconResult
    simp [show pyStrip "" = "" from rfl]
  refine ⟨htok, ?_, ?_, ?_⟩
  · unfold build_exe
    rw [if_neg hs]
    unfold buildCmd nameTokens adddataTokens distTokens hiddenImportTokens
    rw [htok, htok2]
  · unfold build_exe
    rw [if_neg hs]
    simp [iconResult_none_reported hi hfail]
  · unfold build_exe
    rw [if_neg hs]
    simp [runProcess, hsp]

/-- C8 witness: a failing png conversion drops the icon pair while the
build proceeds. -/
theorem c8_icon_failure_drops_option_witness :
    iconTokens envIconFail selIcon = [] ∧
    (build_exe envIconFail selIcon).cmd =
      some (buildCmd envIconFail { selIcon with iconInput := "" }) ∧
    Note.errIconConv ∈ (build_exe envIconFail selIcon).notes ∧
    (build_exe envIconFail selIcon).spawned = true :=
  c8_icon_failure_drops_option envIconFail selIcon (by decide) (by decide)
    (by decide) rfl

/-- C9: the Command Builder is deterministic — two selections agreeing on
the script path, on the state of every recognized flag, on each field
value and on the checked-module list produce identical token sequences in
the same environment — and the boolean flags appear as the
declaration-ordered filter of the recognized flag list, directly after
the program name and script. -/
theorem c9_builder_deterministic (env : BuildEnv) (s1 s2 : Selection)
    (hscript : s1.script = s2.script)
    (hflags : ∀ f ∈ OPTION_FLAGS, s1.flags f = s2.flags f)
    (hname : s1.nameInput = s2.nameInput)
    (hicon : s1.iconInput = s2.iconInput)
    (hdata : s1.adddataInput = s2.adddataInput)
    (hdist : s1.distInput = s2.distInput)
    (hmods : s1.modules = s2.modules) :
    buildCmd env s1 = buildCmd env s2 ∧
    ∃ l, buildCmd env s1 =
      ["pyinstaller", s1.script] ++ OPTION_FLAGS.filter s1.flags ++ l := by
  have hfilter : OPTION_FLAGS.filter s1.flags = OPTION_FLAGS.filter s2.flags :=
    List.filter_congr hflags
  constructor
  · unfold buildCmd nameTokens iconTokens iconResult adddataTokens distTokens
      hiddenImportTokens
    rw [hscript, hname, hicon, hdata, hdist, hmods, hfilter]
  · exact ⟨nameTokens s1 ++ iconTokens env s1 ++ adddataTokens s1 ++ distTokens env s1
      ++ hiddenImportTokens s1, by simp [buildCmd, List.append_assoc]⟩

/-- C9 witness: determinism and flag placement on a selection with one
flag, a name and one checked module. -/
theorem c9_builder_deterministic_witness :
    buildCmd envEx selFlags = buildCmd envEx selFlags ∧
    ∃ l, buildCmd envEx selFlags =
      ["pyinstaller", selFlags.script] ++ OPTION_FLAGS.filter selFlags.flags ++ l :=
  c9_builder_deterministic envEx selFlags selFlags rfl (fun _ _ => rfl) rfl rfl rfl
    rfl rfl

end PyInstallerGUIBuilder
